import Mathlib

/-!
Verification of the Food Flow Tracker (`represnent.py`) against its
natural-language specification.

The embedding is shallow: a pandas `DataFrame` of food records is a
`List FoodRecord`; float quantities are modelled as exact rationals `ℚ`
(an IEEE non-finite result such as `0.0/0.0 = NaN` is modelled as `none`
in an `Option ℚ` field); calendar dates are modelled as integers `ℤ`
(day number), which preserves equality and ordering of dates, the only
date operations the program performs.
-/

/-- One food-flow record, mirroring the dict appended to the `data`
list in `create_sample_data` and the row built by the add-item form:
fields `date`, `item_name`, `category`, `prepared_qty`, `consumed_qty`,
`wasted_qty`, `unit`. -/
structure FoodRecord where
  date : ℤ
  item_name : String
  category : String
  prepared_qty : ℚ
  consumed_qty : ℚ
  wasted_qty : ℚ
  unit : String
deriving DecidableEq

/-- `daily['prepared_qty'].sum()` for a list of records. -/
def sumPrepared (rs : List FoodRecord) : ℚ := (rs.map (·.prepared_qty)).sum

/-- `daily['consumed_qty'].sum()` for a list of records. -/
def sumConsumed (rs : List FoodRecord) : ℚ := (rs.map (·.consumed_qty)).sum

/-- `daily['wasted_qty'].sum()` for a list of records. -/
def sumWasted (rs : List FoodRecord) : ℚ := (rs.map (·.wasted_qty)).sum

/-- The dict returned by `calculate_daily_summary` when the filtered
frame is non-empty. -/
structure DailySummary where
  total_prepared : ℚ
  total_consumed : ℚ
  total_wasted : ℚ
  utilization_rate : ℚ
  waste_percentage : ℚ
deriving DecidableEq

/-- `calculate_daily_summary(df, date)` (lines 146-156):
filters the rows whose `date` equals the given date, returns `None`
on an empty filter result, otherwise the five summary fields.  The
Python guard `... if daily['prepared_qty'].sum() else 0` tests the
truthiness of the sum (`0.0` is falsy), i.e. divides only when the
per-date prepared total is nonzero and yields `0` otherwise. -/
def calculate_daily_summary (df : List FoodRecord) (d : ℤ) : Option DailySummary :=
  let daily := df.filter (fun r => r.date = d)
  if daily.isEmpty then none
  else some
    { total_prepared := sumPrepared daily
      total_consumed := sumConsumed daily
      total_wasted := sumWasted daily
      utilization_rate :=
        if sumPrepared daily = 0 then 0 else sumConsumed daily / sumPrepared daily * 100
      waste_percentage :=
        if sumPrepared daily = 0 then 0 else sumWasted daily / sumPrepared daily * 100 }

/-- `C3`: `calculate_daily_summary` returns `None` exactly when no record
matches the requested date, and a summary (never `None`) otherwise. -/
theorem calculate_daily_summary_none_iff (df : List FoodRecord) (d : ℤ) :
    calculate_daily_summary df d = none ↔ ∀ r ∈ df, r.date ≠ d := by
  unfold calculate_daily_summary
  by_cases h : (df.filter (fun r => r.date = d)).isEmpty
  · simp only [h, if_true]
    rw [List.isEmpty_iff, List.filter_eq_nil_iff] at h
    simpa using h
  · simp only [h, if_false]
    rw [List.isEmpty_iff, List.filter_eq_nil_iff] at h
    push_neg at h
    simpa using h

/-- Unfolding lemma: on a date with at least one matching record the
summary is the record of the five computed fields. -/
theorem calculate_daily_summary_of_ne_nil (df : List FoodRecord) (d : ℤ)
    (h : df.filter (fun r => r.date = d) ≠ []) :
    calculate_daily_summary df d = some
      { total_prepared := sumPrepared (df.filter (fun r => r.date = d))
        total_consumed := sumConsumed (df.filter (fun r => r.date = d))
        total_wasted := sumWasted (df.filter (fun r => r.date = d))
        utilization_rate :=
          if sumPrepared (df.filter (fun r => r.date = d)) = 0 then 0
          else sumConsumed (df.filter (fun r => r.date = d)) /
            sumPrepared (df.filter (fun r => r.date = d)) * 100
        waste_percentage :=
          if sumPrepared (df.filter (fun r => r.date = d)) = 0 then 0
          else sumWasted (df.filter (fun r => r.date = d)) /
            sumPrepared (df.filter (fun r => r.date = d)) * 100 } := by
  unfold calculate_daily_summary
  rw [if_neg (by simpa [List.isEmpty_iff] using h)]

/-- `C4`: when the matching records exist but their prepared total is `0`,
the summary is returned with both percentages equal to `0`; the division
is guarded, no undefined value arises. -/
theorem daily_summary_zero_prepared (df : List FoodRecord) (d : ℤ)
    (hne : df.filter (fun r => r.date = d) ≠ [])
    (hzero : sumPrepared (df.filter (fun r => r.date = d)) = 0) :
    ∃ s, calculate_daily_summary df d = some s ∧
      s.utilization_rate = 0 ∧ s.waste_percentage = 0 := by
  refine ⟨_, calculate_daily_summary_of_ne_nil df d hne, ?_, ?_⟩ <;>
    simp [hzero]

/-- Witness for `C4`: a single all-zero record on date `5`. -/
theorem daily_summary_zero_prepared_witness :
    ([⟨5, "Tofu", "Protein", 0, 0, 0, "kg"⟩] : List FoodRecord).filter
        (fun r => r.date = (5 : ℤ)) ≠ [] ∧
    sumPrepared (([⟨5, "Tofu", "Protein", 0, 0, 0, "kg"⟩] : List FoodRecord).filter
        (fun r => r.date = (5 : ℤ))) = 0 ∧
    ∃ s, calculate_daily_summary [⟨5, "Tofu", "Protein", 0, 0, 0, "kg"⟩] 5 = some s ∧
      s.utilization_rate = 0 ∧ s.waste_percentage = 0 := by
  refine ⟨by simp, by simp [sumPrepared], ?_⟩
  exact daily_summary_zero_prepared _ _ (by simp) (by simp [sumPrepared])

/-- `C5`: with at least one matching record and a positive prepared total,
the summary equals the reference definition (sums over matching records,
percentages `consumed/prepared*100` and `wasted/prepared*100`). -/
theorem daily_summary_pos_prepared (df : List FoodRecord) (d : ℤ)
    (hne : df.filter (fun r => r.date = d) ≠ [])
    (hpos : 0 < sumPrepared (df.filter (fun r => r.date = d))) :
    calculate_daily_summary df d = some
      { total_prepared := sumPrepared (df.filter (fun r => r.date = d))
        total_consumed := sumConsumed (df.filter (fun r => r.date = d))
        total_wasted := sumWasted (df.filter (fun r => r.date = d))
        utilization_rate := sumConsumed (df.filter (fun r => r.date = d)) /
          sumPrepared (df.filter (fun r => r.date = d)) * 100
        waste_percentage := sumWasted (df.filter (fun r => r.date = d)) /
          sumPrepared (df.filter (fun r => r.date = d)) * 100 } := by
  rw [calculate_daily_summary_of_ne_nil df d hne]
  simp [hpos.ne']

/-- The two-record Rice/Chicken scenario of the spec, on date `20240101`. -/
def riceChickenRecords : List FoodRecord :=
  [⟨20240101, "Rice", "Grains", 4, 7/2, 1/2, "kg"⟩,
   ⟨20240101, "Chicken", "Protein", 2, 2, 0, "kg"⟩]

/-- Witness for `C5`: the Rice/Chicken scenario evaluates to totals
`6, 5.5, 0.5` and percentages `91.666… = 275/3` and `8.333… = 25/3`. -/
theorem daily_summary_pos_prepared_witness :
    (riceChickenRecords.filter (fun r => r.date = (20240101 : ℤ)) ≠ [] ∧
      0 < sumPrepared (riceChickenRecords.filter (fun r => r.date = (20240101 : ℤ)))) ∧
    calculate_daily_summary riceChickenRecords 20240101 =
      some ⟨6, 11/2, 1/2, 275/3, 25/3⟩ := by
  have h1 : riceChickenRecords.filter (fun r => r.date = (20240101 : ℤ)) ≠ [] := by
    simp [riceChickenRecords]
  have h2 : 0 < sumPrepared (riceChickenRecords.filter (fun r => r.date = (20240101 : ℤ))) := by
    simp [riceChickenRecords, sumPrepared]
    norm_num
  refine ⟨⟨h1, h2⟩, ?_⟩
  rw [daily_summary_pos_prepared riceChickenRecords 20240101 h1 h2]
  simp [riceChickenRecords, sumPrepared, sumConsumed, sumWasted]
  norm_num

/-!
Grouping.  `df.groupby(key).agg(...).reset_index()` produces one output
row per distinct key value, sorted ascending by key.  We realise the
sorted distinct key sequence with an order-preserving duplicate-dropping
insertion sort, which is executable and kernel-friendly.
-/

/-- Insert `a` into a strictly sorted list, keeping it strictly sorted
(duplicates are dropped). -/
def insertKey {α : Type} [LinearOrder α] (a : α) : List α → List α
  | [] => [a]
  | b :: bs => if a < b then a :: b :: bs else if a = b then b :: bs else b :: insertKey a bs

/-- The ascending list of distinct values of `l`: the index of
`groupby` on key values `l`. -/
def sortedKeys {α : Type} [LinearOrder α] (l : List α) : List α := l.foldr insertKey []

theorem mem_insertKey {α : Type} [LinearOrder α] (a x : α) (l : List α) :
    x ∈ insertKey a l ↔ x = a ∨ x ∈ l := by
  induction l with
  | nil => simp [insertKey]
  | cons b bs ih =>
    by_cases h1 : a < b
    · simp [insertKey, h1]
    · by_cases h2 : a = b
      · subst h2; simp [insertKey, h1]
      · simp [insertKey, h1, h2, ih]
        tauto

theorem sorted_insertKey {α : Type} [LinearOrder α] (a : α) (l : List α)
    (hl : l.Sorted (· < ·)) : (insertKey a l).Sorted (· < ·) := by
  induction l with
  | nil => simp [insertKey]
  | cons b bs ih =>
    rw [List.sorted_cons] at hl
    by_cases h1 : a < b
    · simp only [insertKey, if_pos h1]
      rw [List.sorted_cons]
      refine ⟨?_, by rw [List.sorted_cons]; exact hl⟩
      intro y hy
      rcases List.mem_cons.mp hy with rfl | hy'
      · exact h1
      · exact h1.trans (hl.1 y hy')
    · by_cases h2 : a = b
      · subst h2
        have heq : insertKey a (a :: bs) = a :: bs := by simp [insertKey, h1]
        rw [heq, List.sorted_cons]; exact hl
      · have hba : b < a := lt_of_le_of_ne (not_lt.mp h1) (Ne.symm h2)
        simp only [insertKey, if_neg h1, if_neg h2]
        rw [List.sorted_cons]
        refine ⟨?_, ih hl.2⟩
        intro y hy
        rcases (mem_insertKey a y bs).mp hy with rfl | hy'
        · exact hba
        · exact hl.1 y hy'

theorem sortedKeys_sorted {α : Type} [LinearOrder α] (l : List α) :
    (sortedKeys l).Sorted (· < ·) := by
  induction l with
  | nil => simp [sortedKeys]
  | cons a l ih => exact sorted_insertKey a _ ih

theorem mem_sortedKeys {α : Type} [LinearOrder α] (x : α) (l : List α) :
    x ∈ sortedKeys l ↔ x ∈ l := by
  induction l with
  | nil => simp [sortedKeys]
  | cons a l ih =>
    show x ∈ insertKey a (sortedKeys l) ↔ _
    rw [mem_insertKey, ih]
    simp

theorem sortedKeys_nodup {α : Type} [LinearOrder α] (l : List α) :
    (sortedKeys l).Nodup :=
  (sortedKeys_sorted l).imp ne_of_lt

/-- One output row of the Category Analysis `groupby` (lines 261-265):
the category together with the three summed quantities. -/
structure CategoryTotals where
  category : String
  prepared_qty : ℚ
  consumed_qty : ℚ
  wasted_qty : ℚ
deriving DecidableEq

/-- The Category Analysis computation (lines 261-265):
`food_data.groupby('category').agg({'prepared_qty': 'sum', 'consumed_qty':
'sum', 'wasted_qty': 'sum'}).reset_index()` — one row per distinct
category (ascending), with the per-category sums. -/
def category_summary (df : List FoodRecord) : List CategoryTotals :=
  (sortedKeys (df.map (·.category))).map (fun c =>
    { category := c
      prepared_qty := sumPrepared (df.filter (fun r => r.category = c))
      consumed_qty := sumConsumed (df.filter (fun r => r.category = c))
      wasted_qty := sumWasted (df.filter (fun r => r.category = c)) })

/-- If `a` is not a key of `keys`, the keyed selector sums to the plain
sums. -/
theorem sum_map_ite_of_not_mem {α : Type} [DecidableEq α]
    (keys : List α) (a : α) (v : ℚ) (g : α → ℚ) (ha : a ∉ keys) :
    (keys.map (fun c => (if a = c then v else 0) + g c)).sum = (keys.map g).sum := by
  induction keys with
  | nil => simp
  | cons k ks ih =>
    have hak : a ≠ k := fun h => ha (h ▸ List.mem_cons_self k ks)
    simp only [List.map_cons, List.sum_cons, if_neg hak, zero_add]
    rw [ih (fun h => ha (List.mem_cons_of_mem k h))]

/-- Summing a one-hot contribution over a duplicate-free key list that
contains the hot key yields exactly that contribution. -/
theorem sum_map_ite_of_mem {α : Type} [DecidableEq α]
    (keys : List α) (a : α) (v : ℚ) (g : α → ℚ)
    (hnd : keys.Nodup) (ha : a ∈ keys) :
    (keys.map (fun c => (if a = c then v else 0) + g c)).sum = v + (keys.map g).sum := by
  induction keys with
  | nil => cases ha
  | cons k ks ih =>
    rcases List.mem_cons.mp ha with rfl | ha'
    · simp only [List.map_cons, List.sum_cons]
      rw [if_pos trivial, sum_map_ite_of_not_mem ks a v g (List.nodup_cons.mp hnd).1]
      ring
    · have hak : a ≠ k := fun h => (List.nodup_cons.mp hnd).1 (h ▸ ha')
      simp only [List.map_cons, List.sum_cons, if_neg hak, zero_add]
      rw [ih (List.nodup_cons.mp hnd).2 ha']
      ring

/-- Partitioning a record list by a duplicate-free covering key list
preserves any additive quantity. -/
theorem sum_filter_partition (f : FoodRecord → ℚ) (keys : List String)
    (hnd : keys.Nodup) (df : List FoodRecord)
    (hcov : ∀ r ∈ df, r.category ∈ keys) :
    (keys.map (fun c => ((df.filter (fun r => r.category = c)).map f).sum)).sum
      = (df.map f).sum := by
  induction df with
  | nil => simp
  | cons r rs ih =>
    have hstep : ∀ c ∈ keys,
        (((r :: rs).filter (fun x => x.category = c)).map f).sum
          = (if r.category = c then f r else 0)
            + ((rs.filter (fun x => x.category = c)).map f).sum := by
      intro c _
      by_cases h : r.category = c <;> simp [List.filter_cons, h]
    rw [List.map_congr_left hstep]
    rw [sum_map_ite_of_mem keys r.category (f r) _ hnd (hcov r (List.mem_cons_self r rs))]
    rw [ih (fun x hx => hcov x (List.mem_cons_of_mem r hx))]
    simp

/-- The keys of the category summary are the sorted distinct categories. -/
theorem category_summary_map_category (df : List FoodRecord) :
    (category_summary df).map (·.category) = sortedKeys (df.map (·.category)) := by
  unfold category_summary
  rw [List.map_map]
  exact List.map_id _

/-- `C6`: `category_summary` partitions by exact category string —
duplicate-free keys that are exactly the categories present, per-group
sums over records of that category — preserves the three total masses,
and maps the empty record set to the empty output. -/
theorem category_summary_partitions (df : List FoodRecord) :
    ((category_summary df).map (·.prepared_qty)).sum = (df.map (·.prepared_qty)).sum ∧
    ((category_summary df).map (·.consumed_qty)).sum = (df.map (·.consumed_qty)).sum ∧
    ((category_summary df).map (·.wasted_qty)).sum = (df.map (·.wasted_qty)).sum ∧
    ((category_summary df).map (·.category)).Nodup ∧
    (∀ c, (∃ g ∈ category_summary df, g.category = c) ↔ ∃ r ∈ df, r.category = c) ∧
    (∀ g ∈ category_summary df,
      g.prepared_qty = sumPrepared (df.filter (fun r => r.category = g.category)) ∧
      g.consumed_qty = sumConsumed (df.filter (fun r => r.category = g.category)) ∧
      g.wasted_qty = sumWasted (df.filter (fun r => r.category = g.category))) ∧
    category_summary [] = [] := by
  have hnd : (sortedKeys (df.map (·.category))).Nodup := sortedKeys_nodup _
  have hcov : ∀ r ∈ df, r.category ∈ sortedKeys (df.map (·.category)) := by
    intro r hr
    rw [mem_sortedKeys]
    exact List.mem_map_of_mem _ hr
  refine ⟨?_, ?_, ?_, ?_, ?_, ?_, rfl⟩
  · simpa [category_summary, List.map_map, Function.comp, sumPrepared]
      using sum_filter_partition (·.prepared_qty) _ hnd df hcov
  · simpa [category_summary, List.map_map, Function.comp, sumConsumed]
      using sum_filter_partition (·.consumed_qty) _ hnd df hcov
  · simpa [category_summary, List.map_map, Function.comp, sumWasted]
      using sum_filter_partition (·.wasted_qty) _ hnd df hcov
  · rw [category_summary_map_category]; exact hnd
  · intro c
    constructor
    · rintro ⟨g, hg, rfl⟩
      rcases List.mem_map.mp hg with ⟨c', hc', rfl⟩
      rcases List.mem_map.mp ((mem_sortedKeys c' _).mp hc') with ⟨r, hr, hrc⟩
      exact ⟨r, hr, hrc⟩
    · rintro ⟨r, hr, rfl⟩
      exact ⟨_, List.mem_map_of_mem _ (hcov r hr), rfl⟩
  · intro g hg
    rcases List.mem_map.mp hg with ⟨c, _, rfl⟩
    exact ⟨rfl, rfl, rfl⟩

/-!
The Trends tab (lines 282-291).  The grouped frame has one row per
distinct date, ascending.  The two derived columns are assigned by

  `(grouped['consumed_qty'] / grouped['prepared_qty'] * 100)
     if grouped['prepared_qty'].sum() else 0`

so the *guard* tests the grand prepared total over all dates (the sum of
the grouped column), while the division itself is row-wise with the
per-date prepared total as denominator.  When the guard passes and a
row's prepared total is `0`, IEEE division produces `NaN` (or `±inf`),
modelled as `none`; when the guard fails the scalar `0` is broadcast to
every row.
-/

/-- One row of the grouped Trends frame after the two derived columns
are assigned; `none` in a derived column models a non-finite float. -/
structure TrendEntry where
  date : ℤ
  prepared_qty : ℚ
  consumed_qty : ℚ
  wasted_qty : ℚ
  utilization_rate : Option ℚ
  waste_percentage : Option ℚ
deriving DecidableEq

/-- The ascending distinct dates of the record set: the index of
`groupby('date')`. -/
def trend_dates (df : List FoodRecord) : List ℤ := sortedKeys (df.map (·.date))

/-- The Trends computation (lines 282-291): group by date ascending, sum
the three quantity columns, then assign the two percentage columns with
the *grand-total* zero guard described above. -/
def trend_series (df : List FoodRecord) : List TrendEntry :=
  (trend_dates df).map (fun d =>
    { date := d
      prepared_qty := sumPrepared (df.filter (fun r => r.date = d))
      consumed_qty := sumConsumed (df.filter (fun r => r.date = d))
      wasted_qty := sumWasted (df.filter (fun r => r.date = d))
      utilization_rate :=
        if sumPrepared df = 0 then some 0
        else if sumPrepared (df.filter (fun r => r.date = d)) = 0 then none
        else some (sumConsumed (df.filter (fun r => r.date = d)) /
          sumPrepared (df.filter (fun r => r.date = d)) * 100)
      waste_percentage :=
        if sumPrepared df = 0 then some 0
        else if sumPrepared (df.filter (fun r => r.date = d)) = 0 then none
        else some (sumWasted (df.filter (fun r => r.date = d)) /
          sumPrepared (df.filter (fun r => r.date = d)) * 100) })

/-- The dates of the trend series are the sorted distinct record dates. -/
theorem trend_series_map_date (df : List FoodRecord) :
    (trend_series df).map (·.date) = trend_dates df := by
  unfold trend_series
  rw [List.map_map]
  exact List.map_id _

/-- `C7`: the trend series has exactly one entry per distinct date of the
record set, and its date sequence is strictly ascending (hence without
duplicates). -/
theorem trend_series_dates_strict_ascending (df : List FoodRecord) :
    ((trend_series df).map (·.date)).Sorted (· < ·) ∧
    ((trend_series df).map (·.date)).Nodup ∧
    (∀ d : ℤ, d ∈ (trend_series df).map (·.date) ↔ ∃ r ∈ df, r.date = d) := by
  rw [trend_series_map_date]
  refine ⟨sortedKeys_sorted _, sortedKeys_nodup _, ?_⟩
  intro d
  rw [trend_dates, mem_sortedKeys]
  simp [eq_comm]

/-- Failing input for the Trends zero-denominator policy: one all-zero
record on date `0` and one normal record on date `1`, so the grand
prepared total is `2` but date `0`'s own prepared total is `0`. -/
def trendBugRecords : List FoodRecord :=
  [⟨0, "ZeroDay", "Other", 0, 0, 0, "kg"⟩,
   ⟨1, "NextDay", "Other", 2, 1, 1, "kg"⟩]

/-- `C1`: the Trends computation guards the division with the *grand*
prepared total, so on `trendBugRecords` the guard passes and date `0`
(whose own prepared total is `0`) gets `0/0 = NaN` (modelled `none`) for
both percentages — not the `0` required by the per-date zero-denominator
policy of the spec. -/
theorem trend_zero_day_undefined :
    sumPrepared trendBugRecords ≠ 0 ∧
    ∃ e ∈ trend_series trendBugRecords,
      e.date = 0 ∧ e.prepared_qty = 0 ∧
      e.utilization_rate = none ∧ e.waste_percentage = none := by
  constructor
  · simp [trendBugRecords, sumPrepared]
  · refine ⟨⟨0, 0, 0, 0, none, none⟩, ?_, rfl, rfl, rfl, rfl⟩
    have hdates : trend_dates trendBugRecords = [0, 1] := by
      simp [trendBugRecords, trend_dates, sortedKeys, insertKey]
    have : trend_series trendBugRecords =
        [⟨0, 0, 0, 0, none, none⟩,
         ⟨1, 2, 1, 1, some 50, some 50⟩] := by
      unfold trend_series
      rw [hdates]
      norm_num [trendBugRecords, sumPrepared, sumConsumed, sumWasted]
    rw [this]
    simp

/-!
The add-item form and the render pass of `main()`.

Streamlit reruns `main()` top to bottom on every interaction.  Within
one pass (lines 159-336): the form is processed (lines 187-201: append
on a submission with a non-empty item name, warn on a submission with an
empty one), the metrics and the three chart tabs read the store, then —
line 310 — the store is unconditionally replaced by
`create_sample_data()` before the Detailed Records table (line 313) and
the two exports (lines 319, 329) read it.  Randomness is made explicit:
the fresh sample data produced at line 310 is a parameter of the pass.
-/

/-- The six widget values of the `food_form` submission. -/
structure FormInput where
  item_name : String
  category : String
  prepared_qty : ℚ
  consumed_qty : ℚ
  wasted_qty : ℚ
  unit : String
deriving DecidableEq

/-- What the form surfaces to the user after a submission. -/
inductive FormOutcome where
  | noSubmit
  | success
  | warning
deriving DecidableEq

/-- The row appended by the form (lines 189-197): the submitted fields
with the currently selected date. -/
def submitted_record (sel : ℤ) (f : FormInput) : FoodRecord :=
  { date := sel
    item_name := f.item_name
    category := f.category
    prepared_qty := f.prepared_qty
    consumed_qty := f.consumed_qty
    wasted_qty := f.wasted_qty
    unit := f.unit }

/-- The form step (lines 187-201): `if submitted and item_name:` append
via `pd.concat` and report success, `elif submitted:` warn and leave the
store alone. -/
def process_form (store : List FoodRecord) (sel : ℤ) (sub : Option FormInput) :
    List FoodRecord × FormOutcome :=
  match sub with
  | none => (store, FormOutcome.noSubmit)
  | some f =>
    if f.item_name = "" then (store, FormOutcome.warning)
    else (store ++ [submitted_record sel f], FormOutcome.success)

/-- Everything one render pass computes, with the store contents each
consumer sees. -/
structure RenderResult where
  formOutcome : FormOutcome
  metricsStore : List FoodRecord
  dailySummary : Option DailySummary
  categoryData : List CategoryTotals
  trendData : List TrendEntry
  tableData : List FoodRecord
  csvExport : List FoodRecord
  excelExport : List FoodRecord
  finalStore : List FoodRecord
deriving DecidableEq

/-- One render pass of `main()`: form step, then metrics and the three
tabs over the post-form store, then the line-310 reseed `food_data =
create_sample_data()` (its random output passed in as `fresh`), then the
table and both exports over the reseeded store, which is also the store
the next pass starts from. -/
def render_pass (store : List FoodRecord) (sel : ℤ) (sub : Option FormInput)
    (fresh : List FoodRecord) : RenderResult :=
  let afterForm := process_form store sel sub
  { formOutcome := afterForm.2
    metricsStore := afterForm.1
    dailySummary := calculate_daily_summary afterForm.1 sel
    categoryData := category_summary afterForm.1
    trendData := trend_series afterForm.1
    tableData := fresh
    csvExport := fresh
    excelExport := fresh
    finalStore := fresh }

/-- `C9`: a submission with a non-empty item name appends exactly one
record — the submitted fields with the selected date — at the end of the
store, preserving all prior records in order; a submission with an empty
item name surfaces a warning and leaves the store unchanged. -/
theorem process_form_spec (store : List FoodRecord) (sel : ℤ) (f : FormInput) :
    (f.item_name ≠ "" →
      process_form store sel (some f)
        = (store ++ [submitted_record sel f], FormOutcome.success)) ∧
    (f.item_name = "" →
      process_form store sel (some f) = (store, FormOutcome.warning)) := by
  constructor
  · intro h; simp [process_form, h]
  · intro h; simp [process_form, h]

/-- Witness for `C9`: a non-empty name `"Apple"` appends and succeeds; an
empty name warns and leaves the two-record store untouched. -/
theorem process_form_spec_witness :
    process_form riceChickenRecords 7 (some ⟨"Apple", "Fruits", 1, 4/5, 1/20, "kg"⟩)
      = (riceChickenRecords ++ [submitted_record 7 ⟨"Apple", "Fruits", 1, 4/5, 1/20, "kg"⟩],
         FormOutcome.success) ∧
    process_form riceChickenRecords 7 (some ⟨"", "Fruits", 1, 4/5, 1/20, "kg"⟩)
      = (riceChickenRecords, FormOutcome.warning) :=
  ⟨(process_form_spec riceChickenRecords 7 ⟨"Apple", "Fruits", 1, 4/5, 1/20, "kg"⟩).1
      (by simp),
   (process_form_spec riceChickenRecords 7 ⟨"", "Fruits", 1, 4/5, 1/20, "kg"⟩).2 rfl⟩

/-!
State-passing view of the three aggregations: each returns its result
together with the store it leaves behind.  `calculate_daily_summary`
only filters (a fresh frame), the Category tab only groups (a fresh
frame), and the Trends tab assigns its derived columns to
`food_data.copy()` (line 282), never to `food_data` itself — so in all
three cases the store left behind is the store that was given. -/

/-- Running `calculate_daily_summary(food_data, date)`: result plus the
store afterwards. -/
def run_daily (store : List FoodRecord) (d : ℤ) :
    Option DailySummary × List FoodRecord :=
  (calculate_daily_summary store d, store)

/-- Running the Category Analysis tab: result plus the store
afterwards. -/
def run_category (store : List FoodRecord) :
    List CategoryTotals × List FoodRecord :=
  (category_summary store, store)

/-- Running the Trends tab: the derived columns are assigned to the
copy `trend_data`, so the result comes from the copy and the store
afterwards is the original. -/
def run_trends (store : List FoodRecord) :
    List TrendEntry × List FoodRecord :=
  let trend_data := store
  (trend_series trend_data, store)

/-- `C8`: each aggregation leaves the record collection it was given
unchanged, and running it a second time — on the store left by the
first run — yields a result identical to the first run's. -/
theorem aggregations_deterministic_and_pure (store : List FoodRecord) (d : ℤ) :
    ((run_daily store d).2 = store ∧
      (run_category store).2 = store ∧
      (run_trends store).2 = store) ∧
    ((run_daily (run_daily store d).2 d).1 = (run_daily store d).1 ∧
      (run_category (run_category store).2).1 = (run_category store).1 ∧
      (run_trends (run_trends store).2).1 = (run_trends store).1) :=
  ⟨⟨rfl, rfl, rfl⟩, ⟨rfl, rfl, rfl⟩⟩

/-!
`create_sample_data()` (lines 114-139).  The randomness is made
explicit: a `RandSource` supplies the raw draws, and the Python library
generators are modelled by total functions that map a raw draw into the
documented range of the generator (`random.randint(a, b)` produces an
integer in `[a, b]` inclusive, `random.uniform(a, b)` a float in
`[a, b]`, `random.choice(xs)` an element of `xs`).  `round(x, nd)` is
modelled as rounding to the nearest multiple of `10 ^ (-nd)`; Python's
round-half-to-even and this model differ only on exact ties, and no
property proved here depends on the tie direction.
-/

/-- Raw random draws consumed by one run of `create_sample_data`:
per day `i` the `randint(5, 10)` draw, and per day `i`, slot `j` the
item choice and the two `uniform` draws. -/
structure RandSource where
  dayCount : ℕ → ℕ
  itemPick : ℕ → ℕ → ℕ
  prepRaw : ℕ → ℕ → ℚ
  consRaw : ℕ → ℕ → ℚ

/-- Clamp a raw draw into `[0, 1]`. -/
def clamp01 (q : ℚ) : ℚ := max 0 (min 1 q)

/-- Modelled from the Python stdlib contract: `random.uniform(a, b)`
returns a value in `[a, b]`. -/
def uniformIn (a b raw : ℚ) : ℚ := a + (b - a) * clamp01 raw

/-- Modelled from the Python stdlib contract: `random.randint(a, b)`
returns an integer in `[a, b]` inclusive. -/
def randintIn (a b raw : ℕ) : ℕ := a + raw % (b - a + 1)

/-- Python `round(x, nd)`: round to the nearest multiple of
`10 ^ (-nd)`. -/
def pyround (nd : ℕ) (q : ℚ) : ℚ := (round (q * 10 ^ nd) : ℚ) / 10 ^ nd

/-- `sample_items` (line 117). -/
def sample_items : List String :=
  ["Rice", "Chicken", "Vegetables", "Bread", "Milk", "Eggs", "Fruits", "Pasta", "Beef", "Salad"]

/-- `sample_categories` (line 118), positionally matched to
`sample_items`. -/
def sample_categories : List String :=
  ["Grains", "Protein", "Vegetables", "Grains", "Dairy", "Protein", "Fruits", "Grains", "Protein", "Vegetables"]

/-- `units` (line 119), positionally matched to `sample_items`. -/
def sample_units : List String :=
  ["kg", "kg", "kg", "loaf", "L", "dozen", "kg", "kg", "kg", "kg"]

/-- One generated record (lines 124-138): a chosen item (whose category
and unit are looked up through `sample_items.index(item)`),
`prepared = round(uniform(1, 5), 1)`,
`consumed = round(uniform(0, prepared), 1)`,
`wasted = round(prepared - consumed, 2)`, dated `today - i`. -/
def sampleRecord (today : ℤ) (rand : RandSource) (i j : ℕ) : FoodRecord :=
  let item := sample_items.getD (rand.itemPick i j % sample_items.length) ""
  let k := sample_items.indexOf item
  let prepared := pyround 1 (uniformIn 1 5 (rand.prepRaw i j))
  let consumed := pyround 1 (uniformIn 0 prepared (rand.consRaw i j))
  { date := today - (i : ℤ)
    item_name := item
    category := sample_categories.getD k ""
    prepared_qty := prepared
    consumed_qty := consumed
    wasted_qty := pyround 2 (prepared - consumed)
    unit := sample_units.getD k "" }

/-- The `random.randint(5, 10)` item count for day `i` (line 123). -/
def numItems (rand : RandSource) (i : ℕ) : ℕ := randintIn 5 10 (rand.dayCount i)

/-- The records generated for day index `i` (date `today - i`). -/
def dayBlock (today : ℤ) (rand : RandSource) (i : ℕ) : List FoodRecord :=
  (List.range (numItems rand i)).map (sampleRecord today rand i)

/-- `create_sample_data()`: 7 day indices (`sample_dates`, line 116,
dates `today - 0 … today - 6`), each contributing its block. -/
def create_sample_data (today : ℤ) (rand : RandSource) : List FoodRecord :=
  (List.range 7).flatMap (dayBlock today rand)

theorem round_mono {x y : ℚ} (h : x ≤ y) : round x ≤ round y := by
  rw [round_eq, round_eq]
  exact Int.floor_mono (by linarith)

theorem clamp01_mem (q : ℚ) : 0 ≤ clamp01 q ∧ clamp01 q ≤ 1 :=
  ⟨le_max_left 0 _, max_le (by norm_num) (min_le_left 1 q)⟩

theorem uniformIn_mem {a b : ℚ} (hab : a ≤ b) (raw : ℚ) :
    a ≤ uniformIn a b raw ∧ uniformIn a b raw ≤ b := by
  obtain ⟨h0, h1⟩ := clamp01_mem raw
  unfold uniformIn
  constructor <;> nlinarith

/-- `round(q, 1)` of a value in `[lo, hi]`, with `10*lo` and `10*hi`
integral, stays in `[lo, hi]`, and equals its rounded integer numerator
over 10. -/
theorem pyround_one_bounds {q : ℚ} {lo hi : ℤ}
    (hlo : (lo : ℚ) / 10 ≤ q) (hhi : q ≤ (hi : ℚ) / 10) :
    pyround 1 q = (round (q * 10) : ℚ) / 10 ∧
    lo ≤ round (q * 10) ∧ round (q * 10) ≤ hi := by
  refine ⟨by norm_num [pyround], ?_, ?_⟩
  · have h : (lo : ℚ) ≤ q * 10 := by linarith
    have := round_mono h
    rwa [round_intCast] at this
  · have h : q * 10 ≤ (hi : ℚ) := by linarith
    have := round_mono h
    rwa [round_intCast] at this

/-- The quantity triple of every generated record is consistent:
`prepared ∈ [1, 5]`, `0 ≤ consumed ≤ prepared`, and the rounded
difference `wasted` equals `prepared - consumed` exactly (both are on
the tenths grid), hence is nonnegative. -/
theorem sampleRecord_quantities (today : ℤ) (rand : RandSource) (i j : ℕ) :
    1 ≤ (sampleRecord today rand i j).prepared_qty ∧
    (sampleRecord today rand i j).prepared_qty ≤ 5 ∧
    0 ≤ (sampleRecord today rand i j).consumed_qty ∧
    (sampleRecord today rand i j).consumed_qty ≤ (sampleRecord today rand i j).prepared_qty ∧
    (sampleRecord today rand i j).wasted_qty
      = pyround 2 ((sampleRecord today rand i j).prepared_qty
          - (sampleRecord today rand i j).consumed_qty) ∧
    (sampleRecord today rand i j).wasted_qty
      = (sampleRecord today rand i j).prepared_qty
          - (sampleRecord today rand i j).consumed_qty := by
  obtain ⟨hu1, hu5⟩ := uniformIn_mem (by norm_num : (1:ℚ) ≤ 5) (rand.prepRaw i j)
  obtain ⟨hp_eq, hm_lo, hm_hi⟩ :=
    @pyround_one_bounds (uniformIn 1 5 (rand.prepRaw i j)) 10 50
      (by push_cast; linarith) (by push_cast; linarith)
  set m : ℤ := round (uniformIn 1 5 (rand.prepRaw i j) * 10) with hm
  have hprep : (sampleRecord today rand i j).prepared_qty = (m : ℚ) / 10 := hp_eq
  have hprep1 : (1 : ℚ) ≤ (m : ℚ) / 10 := by
    rw [le_div_iff₀ (by norm_num : (0:ℚ) < 10)]
    have h10 : (10 : ℚ) ≤ (m : ℚ) := by exact_mod_cast hm_lo
    linarith
  have hprep5 : (m : ℚ) / 10 ≤ 5 := by
    have h50 : (m : ℚ) ≤ 50 := by exact_mod_cast hm_hi
    rw [div_le_iff₀ (by norm_num : (0:ℚ) < 10)]
    linarith
  obtain ⟨hc0, hcp⟩ := uniformIn_mem
    (by rw [hprep]; linarith : (0:ℚ) ≤ (sampleRecord today rand i j).prepared_qty)
    (rand.consRaw i j)
  obtain ⟨hc_eq, hk_lo, hk_hi⟩ :=
    @pyround_one_bounds (uniformIn 0 (sampleRecord today rand i j).prepared_qty (rand.consRaw i j))
      0 m (by push_cast; linarith) (by rw [← hprep]; exact hcp)
  set k : ℤ := round (uniformIn 0 (sampleRecord today rand i j).prepared_qty (rand.consRaw i j) * 10) with hk
  have hcons : (sampleRecord today rand i j).consumed_qty = (k : ℚ) / 10 := hc_eq
  have hk0 : (0 : ℚ) ≤ (k : ℚ) := by exact_mod_cast hk_lo
  have hkm : (k : ℚ) ≤ (m : ℚ) := by exact_mod_cast hk_hi
  have hwaste_def : (sampleRecord today rand i j).wasted_qty
      = pyround 2 ((sampleRecord today rand i j).prepared_qty
          - (sampleRecord today rand i j).consumed_qty) := rfl
  have hdiff : (sampleRecord today rand i j).prepared_qty
      - (sampleRecord today rand i j).consumed_qty = ((m - k : ℤ) : ℚ) / 10 := by
    rw [hprep, hcons]; push_cast; ring
  have hwaste_exact : pyround 2 ((sampleRecord today rand i j).prepared_qty
      - (sampleRecord today rand i j).consumed_qty)
      = (sampleRecord today rand i j).prepared_qty
          - (sampleRecord today rand i j).consumed_qty := by
    rw [hdiff]
    unfold pyround
    have h1 : ((m - k : ℤ) : ℚ) / 10 * 10 ^ 2 = ((10 * (m - k) : ℤ) : ℚ) := by
      push_cast; ring
    rw [h1, round_intCast]
    push_cast; ring
  refine ⟨?_, ?_, ?_, ?_, hwaste_def, ?_⟩
  · rw [hprep]; exact hprep1
  · rw [hprep]; exact hprep5
  · rw [hcons]; positivity
  · rw [hcons, hprep]; linarith
  · rw [hwaste_def, hwaste_exact]

/-- The ten sample items are pairwise distinct, so
`sample_items.index(item)` recovers the position the item was chosen
from. -/
theorem sample_items_indexOf_getD :
    ∀ k, k < 10 → sample_items.indexOf (sample_items.getD k "") = k := by decide

/-- Every positional category is one of the five categories used by the
generator. -/
theorem sample_categories_getD_mem :
    ∀ k, k < 10 →
      sample_categories.getD k "" ∈ ["Grains", "Protein", "Vegetables", "Fruits", "Dairy"] := by
  decide

/-- Every generated record carries the item, category and unit found at
one common position of the three sample tables. -/
theorem sampleRecord_tables (today : ℤ) (rand : RandSource) (i j : ℕ) :
    ∃ k, k < 10 ∧
      (sampleRecord today rand i j).item_name = sample_items.getD k "" ∧
      (sampleRecord today rand i j).category = sample_categories.getD k "" ∧
      (sampleRecord today rand i j).unit = sample_units.getD k "" := by
  have hlen : sample_items.length = 10 := rfl
  have hlt : rand.itemPick i j % sample_items.length < 10 := by
    rw [hlen]; exact Nat.mod_lt _ (by norm_num)
  refine ⟨rand.itemPick i j % sample_items.length, hlt, rfl, ?_, ?_⟩
  · show sample_categories.getD
      (sample_items.indexOf (sample_items.getD (rand.itemPick i j % sample_items.length) "")) ""
        = _
    rw [sample_items_indexOf_getD _ hlt]
  · show sample_units.getD
      (sample_items.indexOf (sample_items.getD (rand.itemPick i j % sample_items.length) "")) ""
        = _
    rw [sample_items_indexOf_getD _ hlt]

/-- Every record of day block `i` is dated `today - i`. -/
theorem dayBlock_date (today : ℤ) (rand : RandSource) (i : ℕ) :
    ∀ r ∈ dayBlock today rand i, r.date = today - (i : ℤ) := by
  intro r hr
  rcases List.mem_map.mp hr with ⟨j, _, rfl⟩
  rfl

theorem filter_dayBlock_self (today : ℤ) (rand : RandSource) (i : ℕ) :
    (dayBlock today rand i).filter (fun r => r.date = today - (i : ℤ))
      = dayBlock today rand i := by
  rw [List.filter_eq_self]
  intro r hr
  simpa using dayBlock_date today rand i r hr

theorem filter_dayBlock_ne (today : ℤ) (rand : RandSource) {i' i : ℕ} (h : i' ≠ i) :
    (dayBlock today rand i').filter (fun r => r.date = today - (i : ℤ)) = [] := by
  rw [List.filter_eq_nil_iff]
  intro r hr
  have hd := dayBlock_date today rand i' r hr
  simp only [decide_eq_true_eq]
  intro hcontra
  rw [hd] at hcontra
  have : (i' : ℤ) = (i : ℤ) := by omega
  exact h (by exact_mod_cast this)

theorem filter_flatMap_not_mem (today : ℤ) (rand : RandSource) (i : ℕ)
    (l : List ℕ) (h : i ∉ l) :
    ((l.flatMap (dayBlock today rand)).filter (fun r => r.date = today - (i : ℤ))) = [] := by
  induction l with
  | nil => rfl
  | cons a l ih =>
    rw [List.flatMap_cons, List.filter_append]
    rw [filter_dayBlock_ne today rand
        (fun hai : a = i => h (by rw [← hai]; exact List.mem_cons_self a l)),
      ih (fun hil => h (List.mem_cons_of_mem a hil))]
    rfl

theorem filter_flatMap_mem (today : ℤ) (rand : RandSource) (i : ℕ)
    (l : List ℕ) (hmem : i ∈ l) (hnd : l.Nodup) :
    ((l.flatMap (dayBlock today rand)).filter (fun r => r.date = today - (i : ℤ)))
      = dayBlock today rand i := by
  induction l with
  | nil => cases hmem
  | cons a l ih =>
    rw [List.flatMap_cons, List.filter_append]
    rcases List.mem_cons.mp hmem with rfl | hmem'
    · rw [filter_dayBlock_self,
        filter_flatMap_not_mem today rand i l (List.nodup_cons.mp hnd).1,
        List.append_nil]
    · rw [filter_dayBlock_ne today rand
          (fun hai : a = i => (List.nodup_cons.mp hnd).1 (by rw [hai]; exact hmem')),
        ih hmem' (List.nodup_cons.mp hnd).2, List.nil_append]

/-- The records carrying date `today - i`, `i < 7`, are exactly day
block `i`. -/
theorem create_sample_data_filter_date (today : ℤ) (rand : RandSource)
    (i : ℕ) (hi : i < 7) :
    ((create_sample_data today rand).filter (fun r => r.date = today - (i : ℤ)))
      = dayBlock today rand i := by
  unfold create_sample_data
  exact filter_flatMap_mem today rand i _ (List.mem_range.mpr hi) (List.nodup_range 7)

/-- Every generated record's item name is one of the ten sample
items. -/
theorem create_sample_data_item_mem (today : ℤ) (rand : RandSource) :
    ∀ r ∈ create_sample_data today rand, r.item_name ∈ sample_items := by
  intro r hr
  rcases List.mem_flatMap.mp hr with ⟨i, _, hblock⟩
  rcases List.mem_map.mp hblock with ⟨j, _, rfl⟩
  obtain ⟨k, hk, hitem, -, -⟩ := sampleRecord_tables today rand i j
  rw [hitem]
  have : ∀ k, k < 10 → sample_items.getD k "" ∈ sample_items := by decide
  exact this k hk

/-- `C10`: sample-data invariants.  Every generated record has a
category from the five generator categories, item/category/unit drawn
from one common position of the sample tables, a consistent quantity
triple `0 ≤ consumed ≤ prepared` with
`wasted = round(prepared - consumed, 2) ≥ 0`, and a date `today - i`
with `i < 7`; and each of the 7 consecutive dates ending today carries
between 5 and 10 records. -/
theorem create_sample_data_invariants (today : ℤ) (rand : RandSource) :
    (∀ r ∈ create_sample_data today rand,
      r.category ∈ ["Grains", "Protein", "Vegetables", "Fruits", "Dairy"] ∧
      (∃ k, k < 10 ∧ r.item_name = sample_items.getD k "" ∧
        r.category = sample_categories.getD k "" ∧ r.unit = sample_units.getD k "") ∧
      0 ≤ r.consumed_qty ∧ r.consumed_qty ≤ r.prepared_qty ∧
      r.wasted_qty = pyround 2 (r.prepared_qty - r.consumed_qty) ∧ 0 ≤ r.wasted_qty ∧
      (∃ i : ℕ, i < 7 ∧ r.date = today - (i : ℤ))) ∧
    (∀ i : ℕ, i < 7 →
      5 ≤ ((create_sample_data today rand).filter
            (fun r => r.date = today - (i : ℤ))).length ∧
      ((create_sample_data today rand).filter
            (fun r => r.date = today - (i : ℤ))).length ≤ 10) := by
  constructor
  · intro r hr
    rcases List.mem_flatMap.mp hr with ⟨i, hi, hblock⟩
    rcases List.mem_map.mp hblock with ⟨j, _, rfl⟩
    obtain ⟨k, hk, hitem, hcat, hunit⟩ := sampleRecord_tables today rand i j
    obtain ⟨-, -, hc0, hcp, hwdef, hwexact⟩ := sampleRecord_quantities today rand i j
    refine ⟨?_, ⟨k, hk, hitem, hcat, hunit⟩, hc0, hcp, hwdef, ?_, ⟨i, List.mem_range.mp hi, rfl⟩⟩
    · rw [hcat]; exact sample_categories_getD_mem k hk
    · rw [hwexact]; linarith
  · intro i hi
    rw [create_sample_data_filter_date today rand i hi]
    unfold dayBlock
    rw [List.length_map, List.length_range]
    unfold numItems randintIn
    have : rand.dayCount i % (10 - 5 + 1) < 6 := Nat.mod_lt _ (by norm_num)
    omega

/-- A fixed all-zeros random source, for concrete evaluation. -/
def zeroRand : RandSource :=
  { dayCount := fun _ => 0
    itemPick := fun _ _ => 0
    prepRaw := fun _ _ => 0
    consRaw := fun _ _ => 0 }

/-- Witness for `C10`: the invariants instantiated at `today = 0`,
`zeroRand`, for the concrete first generated record and the concrete
date index `0`. -/
theorem create_sample_data_invariants_witness :
    sampleRecord 0 zeroRand 0 0 ∈ create_sample_data 0 zeroRand ∧
    (0 : ℕ) < 7 ∧
    (0 ≤ (sampleRecord 0 zeroRand 0 0).consumed_qty ∧
      (sampleRecord 0 zeroRand 0 0).consumed_qty ≤ (sampleRecord 0 zeroRand 0 0).prepared_qty ∧
      (sampleRecord 0 zeroRand 0 0).category
        ∈ ["Grains", "Protein", "Vegetables", "Fruits", "Dairy"]) ∧
    (5 ≤ ((create_sample_data 0 zeroRand).filter
          (fun r => r.date = (0 : ℤ) - ((0 : ℕ) : ℤ))).length ∧
      ((create_sample_data 0 zeroRand).filter
          (fun r => r.date = (0 : ℤ) - ((0 : ℕ) : ℤ))).length ≤ 10) := by
  have hmem : sampleRecord 0 zeroRand 0 0 ∈ create_sample_data 0 zeroRand := by
    unfold create_sample_data
    refine List.mem_flatMap.mpr ⟨0, by simp, ?_⟩
    unfold dayBlock
    refine List.mem_map.mpr ⟨0, List.mem_range.mpr ?_, rfl⟩
    show 0 < numItems zeroRand 0
    norm_num [numItems, randintIn, zeroRand]
  obtain ⟨hcat, -, hc0, hcp, -⟩ :=
    (create_sample_data_invariants 0 zeroRand).1 (sampleRecord 0 zeroRand 0 0) hmem
  exact ⟨hmem, by norm_num,
    ⟨hc0, hcp, hcat⟩,
    (create_sample_data_invariants 0 zeroRand).2 0 (by norm_num)⟩

/-- `C2`: within one render pass with a successful form submission, the
appended record is present in the store the metrics and charts read, but
line 310 wholesale replaces the store with `create_sample_data()` before
the Detailed Records table and the two exports read it — so the table,
both exports and the store the next pass starts from are exactly the
fresh sample data, and the appended record (when not coincidentally
regenerated) is absent from all four. -/
theorem reseed_discards_added_record (store : List FoodRecord) (sel : ℤ)
    (f : FormInput) (today : ℤ) (rand : RandSource)
    (hname : f.item_name ≠ "")
    (hnotin : submitted_record sel f ∉ create_sample_data today rand) :
    (render_pass store sel (some f) (create_sample_data today rand)).formOutcome
        = FormOutcome.success ∧
    (render_pass store sel (some f) (create_sample_data today rand)).metricsStore
        = store ++ [submitted_record sel f] ∧
    (render_pass store sel (some f) (create_sample_data today rand)).tableData
        = create_sample_data today rand ∧
    (render_pass store sel (some f) (create_sample_data today rand)).csvExport
        = create_sample_data today rand ∧
    (render_pass store sel (some f) (create_sample_data today rand)).excelExport
        = create_sample_data today rand ∧
    (render_pass store sel (some f) (create_sample_data today rand)).finalStore
        = create_sample_data today rand ∧
    submitted_record sel f
      ∉ (render_pass store sel (some f) (create_sample_data today rand)).tableData ∧
    submitted_record sel f
      ∉ (render_pass store sel (some f) (create_sample_data today rand)).csvExport ∧
    submitted_record sel f
      ∉ (render_pass store sel (some f) (create_sample_data today rand)).excelExport ∧
    submitted_record sel f
      ∉ (render_pass store sel (some f) (create_sample_data today rand)).finalStore := by
  refine ⟨?_, ?_, rfl, rfl, rfl, rfl, hnotin, hnotin, hnotin, hnotin⟩ <;>
    simp [render_pass, process_form, hname]

/-- The concrete form submission used to witness `C2`. -/
def appleForm : FormInput := ⟨"Apple", "Fruits", 1, 4/5, 1/20, "kg"⟩

/-- Witness for `C2`: submitting `"Apple"` over the empty store on a
pass whose reseed uses the all-zeros random source; `"Apple"` is not a
sample item, so the appended record cannot be regenerated. -/
theorem reseed_discards_added_record_witness :
    (appleForm.item_name ≠ "" ∧
      submitted_record 0 appleForm ∉ create_sample_data 0 zeroRand) ∧
    ((render_pass [] 0 (some appleForm) (create_sample_data 0 zeroRand)).metricsStore
        = [] ++ [submitted_record 0 appleForm] ∧
      (render_pass [] 0 (some appleForm) (create_sample_data 0 zeroRand)).tableData
        = create_sample_data 0 zeroRand ∧
      (render_pass [] 0 (some appleForm) (create_sample_data 0 zeroRand)).finalStore
        = create_sample_data 0 zeroRand ∧
      submitted_record 0 appleForm
        ∉ (render_pass [] 0 (some appleForm) (create_sample_data 0 zeroRand)).finalStore) := by
  have hname : appleForm.item_name ≠ "" := by simp [appleForm]
  have hnotin : submitted_record 0 appleForm ∉ create_sample_data 0 zeroRand := by
    intro hmem
    have h := create_sample_data_item_mem 0 zeroRand _ hmem
    revert h
    decide
  obtain ⟨-, h2, h3, -, -, h6, -, -, -, h10⟩ :=
    reseed_discards_added_record [] 0 appleForm 0 zeroRand hname hnotin
  exact ⟨⟨hname, hnotin⟩, h2, h3, h6, h10⟩
